import Mathlib

/-!
# Verification of the sql-parser-go recursive-descent parser

Shallow embedding of `pkg/parser/parser.go` (the recursive-descent SQL
parser of Chahine-tech/sql-parser-go).  The token type, the AST node
shapes and the object pool are used by `parser.go` but their defining
files (lexer, ast) are not part of the provided sources; they are
modelled from the specification where so marked.  Go's dynamic
behaviour is made explicit:

* the token stream is a `List Token`; the lexer returns `EOF` forever
  once exhausted, modelled by padding with `eofToken`;
* Go's `(value, error)` multiple returns become `Option α × Option String`
  pairs (`nil` ↦ `none`);
* the cooperative context cancellation is modelled by an optional
  threshold `cancelAt`: the context's `Done` channel is closed exactly
  when the parser has performed at least `cancelAt` token advances,
  which covers every possible point at which an external cancellation
  can first be observed (observation points are exactly the
  `nextToken` calls);
* the object pool is modelled by get/put counters per pooled shape;
* recursion is fuel-indexed; a `none` overall result means the fuel ran
  out, i.e. the modelled execution performed more steps than the given
  bound (used to express non-termination of the source).
-/

namespace SqlParserGo

/-- Modelled from the spec: token kinds produced by the lexer
(`pkg/lexer`, not under the provided sources).  The reserved words and
operator kinds are the ones `parser.go` dispatches on, per §4.1 of the
specification. -/
inductive TokenType where
  | SELECT | FROM | WHERE | JOIN | INNER | LEFT | RIGHT | FULL | ON
  | GROUP | BY | HAVING | ORDER | TOP | DISTINCT | AS | AND | OR
  | LIKE | IN | INSERT | UPDATE | DELETE | CREATE | DROP | ALTER
  | IDENT | NUMBER | STRING
  | ASSIGN | EQ | NOT_EQ | LT | GT | LTE | GTE
  | PLUS | MINUS | ASTERISK | SLASH
  | DOT | COMMA | SEMICOLON | LPAREN | RPAREN
  | ILLEGAL | EOF
  deriving DecidableEq, Repr

/-- Modelled from the spec: rendering of a token kind, used only inside
diagnostic strings (`TokenType.String()` of the lexer package, not under
the provided sources). -/
def TokenType.str : TokenType → String
  | .SELECT => "SELECT" | .FROM => "FROM" | .WHERE => "WHERE"
  | .JOIN => "JOIN" | .INNER => "INNER" | .LEFT => "LEFT"
  | .RIGHT => "RIGHT" | .FULL => "FULL" | .ON => "ON"
  | .GROUP => "GROUP" | .BY => "BY" | .HAVING => "HAVING"
  | .ORDER => "ORDER" | .TOP => "TOP" | .DISTINCT => "DISTINCT"
  | .AS => "AS" | .AND => "AND" | .OR => "OR"
  | .LIKE => "LIKE" | .IN => "IN" | .INSERT => "INSERT"
  | .UPDATE => "UPDATE" | .DELETE => "DELETE" | .CREATE => "CREATE"
  | .DROP => "DROP" | .ALTER => "ALTER" | .IDENT => "IDENT"
  | .NUMBER => "NUMBER" | .STRING => "STRING" | .ASSIGN => "="
  | .EQ => "==" | .NOT_EQ => "<>" | .LT => "<" | .GT => ">"
  | .LTE => "<=" | .GTE => ">=" | .PLUS => "+" | .MINUS => "-"
  | .ASTERISK => "*" | .SLASH => "/" | .DOT => "." | .COMMA => ","
  | .SEMICOLON => ";" | .LPAREN => "(" | .RPAREN => ")"
  | .ILLEGAL => "ILLEGAL" | .EOF => "EOF"

/-- Modelled from the spec: a lexer token: kind, literal text and
1-based position (§3 of the specification). -/
structure Token where
  type : TokenType
  literal : String
  line : Nat
  column : Nat
  deriving DecidableEq, Repr

/-- The token the modelled lexer returns once the input is exhausted
(`NextToken` returns `EOF` repeatedly, §4.1). -/
def eofToken : Token := { type := .EOF, literal := "", line := 0, column := 0 }

/-- `Literal.Value` of the AST (`interface{}` holding `int64`,
`float64` or `string`).  A float value keeps the raw literal text: no
claim depends on floating-point semantics. -/
inductive LitValue where
  | intVal (i : Int)
  | floatVal (raw : String)
  | strVal (s : String)
  deriving DecidableEq, Repr

/-- The `Expression` interface of the AST: `ColumnReference`,
`Literal`, `BinaryExpression`, `StarExpression`, `FunctionCall`.
Absent optional strings (Go zero value) are `""`. -/
inductive Expression where
  | columnRef (table column : String)
  | literal (value : LitValue)
  | binary (left : Expression) (operator : String) (right : Expression)
  | star (table : String)
  | funcCall (name : String) (arguments : List Expression)

/-- `TableReference{Schema?, Name, Alias?}`. -/
structure TableReference where
  Schema : String := ""
  Name : String := ""
  Alias : String := ""
  deriving DecidableEq, Repr

/-- `TopClause{Count, Percent}`. -/
structure TopClause where
  Count : Int
  Percent : Bool := false
  deriving DecidableEq, Repr

/-- `FromClause{Tables}`. -/
structure FromClause where
  Tables : List TableReference := []
  deriving DecidableEq, Repr

/-- `JoinClause{JoinType, Table, Condition}`; `Condition` may be `nil`
on a pool-fresh node, hence `Option`. -/
structure JoinClause where
  JoinType : String := ""
  Table : TableReference := {}
  Condition : Option Expression := none

/-- `OrderByClause{Expression, Direction}`. -/
structure OrderByClause where
  Expr : Expression
  Direction : String

/-- `SelectStatement` with its optional clauses (`nil` pointer ↦
`none`, `nil` slice ↦ `[]`). -/
structure SelectStatement where
  Distinct : Bool := false
  Top : Option TopClause := none
  Columns : List Expression := []
  From : Option FromClause := none
  Joins : List JoinClause := []
  Where : Option Expression := none
  GroupBy : List Expression := []
  Having : Option Expression := none
  OrderBy : List OrderByClause := []

/-- The `Statement` interface.  Only `SelectStatement` values are ever
produced by `parser.go` (the Insert/Update/Delete parsers are stubs
that return `nil`). -/
inductive Statement where
  | selectStmt (s : SelectStatement)

/-- Modelled from the spec: the typed object pool (`GetSelectStatement`
/ `PutSelectStatement` and friends; their defining file is not under
the provided sources).  Only what the claims need is tracked: how many
nodes of each pooled shape were obtained and returned. -/
structure PoolState where
  selectGets : Nat := 0
  selectPuts : Nat := 0
  joinGets : Nat := 0
  joinPuts : Nat := 0
  binaryGets : Nat := 0
  binaryPuts : Nat := 0
  columnGets : Nat := 0
  columnPuts : Nat := 0
  deriving DecidableEq, Repr

/-- The `Parser` struct: current token, one-token lookahead, remaining
lexer stream, accumulated error strings, cancellation model and pool
counters.  `adv` counts performed token advances (`tokenCount`);
`cancelAt = some k` means the context's `Done` channel is closed from
the `k`-th advance on. -/
structure Parser where
  curToken : Token
  peekToken : Token
  restTokens : List Token
  errors : List String
  cancelAt : Option Nat
  adv : Nat
  pool : PoolState
  deriving DecidableEq, Repr

/-- Whether `ctx.Done()` is observed closed for this parser state. -/
def ctxDone (p : Parser) : Bool :=
  match p.cancelAt with
  | none => false
  | some k => k ≤ p.adv

/-- `nextToken`: check cancellation first; when cancelled, append the
cancellation error and do not advance; otherwise shift peek into
current and pull the next lexer token. -/
def nextToken (p : Parser) : Parser :=
  if ctxDone p then
    { p with errors := p.errors ++ ["parsing cancelled due to timeout"] }
  else
    match p.restTokens with
    | [] => { p with curToken := p.peekToken, peekToken := eofToken, adv := p.adv + 1 }
    | t :: ts =>
        { p with curToken := p.peekToken, peekToken := t, restTokens := ts,
                 adv := p.adv + 1 }

/-- `NewWithContext` + the two initial `nextToken` calls: both
`curToken` and `peekToken` get populated from the stream. -/
def mkParser (toks : List Token) (cancelAt : Option Nat) : Parser :=
  nextToken (nextToken
    { curToken := eofToken, peekToken := eofToken, restTokens := toks,
      errors := [], cancelAt := cancelAt, adv := 0, pool := {} })

def curTokenIs (p : Parser) (t : TokenType) : Bool := p.curToken.type = t

def peekTokenIs (p : Parser) (t : TokenType) : Bool := p.peekToken.type = t

/-- Modelled from the spec: the rendered message of `NewSyntaxError`
(errors file not under the provided sources): expected kind, actual
kind, line, column (§7 of the specification). -/
def syntaxErrorMessage (expected got : String) (line column : Nat) : String :=
  "expected " ++ expected ++ ", got " ++ got ++ " at line " ++ toString line ++
    ", column " ++ toString column

/-- `peekError`: record a structured syntax error about the peek token. -/
def peekError (p : Parser) (t : TokenType) : Parser :=
  { p with errors := p.errors ++
      [syntaxErrorMessage t.str p.peekToken.type.str p.peekToken.line p.peekToken.column] }

/-- `expectPeek`: advance and return true when the peek token matches,
else record a syntax error and return false without advancing. -/
def expectPeek (p : Parser) (t : TokenType) : Bool × Parser :=
  if peekTokenIs p t then (true, nextToken p) else (false, peekError p t)

/-- Pool accessors (counter model): `GetSelectStatement`. -/
def getSelectStatement (p : Parser) : Parser :=
  { p with pool := { p.pool with selectGets := p.pool.selectGets + 1 } }

/-- `PutSelectStatement`. -/
def putSelectStatement (p : Parser) : Parser :=
  { p with pool := { p.pool with selectPuts := p.pool.selectPuts + 1 } }

/-- `GetJoinClause`. -/
def getJoinClause (p : Parser) : Parser :=
  { p with pool := { p.pool with joinGets := p.pool.joinGets + 1 } }

/-- `PutJoinClause`. -/
def putJoinClause (p : Parser) : Parser :=
  { p with pool := { p.pool with joinPuts := p.pool.joinPuts + 1 } }

/-- `GetBinaryExpression`. -/
def getBinaryExpression (p : Parser) : Parser :=
  { p with pool := { p.pool with binaryGets := p.pool.binaryGets + 1 } }

/-- `GetColumnReference`. -/
def getColumnReference (p : Parser) : Parser :=
  { p with pool := { p.pool with columnGets := p.pool.columnGets + 1 } }

/-- A Go `(value, error)` return pair: `nil` on either side is `none`. -/
abbrev GoRet (α : Type) := Option α × Option String

/-- A fuel-indexed parse result: `none` when the step bound (fuel) was
exhausted, otherwise the returned pair together with the parser state
at the return point. -/
abbrev PRes (α : Type) := Option (GoRet α × Parser)

/-- Composition of the Go idiom `x, err := f(...); if err != nil
{ return nil, err }` with no additional clean-up on the error path. -/
def bindR {α β : Type} (r : PRes α) (k : α → Parser → PRes β) : PRes β :=
  match r with
  | none => none
  | some ((some a, none), p) => k a p
  | some ((_, e), p) => some ((none, e), p)

/-- `isInfixOperator`. -/
def isInfixOperator (t : TokenType) : Bool :=
  match t with
  | .ASSIGN | .EQ | .NOT_EQ | .LT | .GT | .LTE | .GTE
  | .AND | .OR | .PLUS | .MINUS | .ASTERISK | .SLASH
  | .LIKE | .IN => true
  | _ => false

/-- ASCII upper-casing of one character (`strings.ToUpper` on the
ASCII literals the parser compares against). -/
def upChar (c : Char) : Char :=
  if 97 ≤ c.toNat ∧ c.toNat ≤ 122 then Char.ofNat (c.toNat - 32) else c

/-- `strings.ToUpper` restricted to ASCII, the only case exercised by
the parser's keyword comparisons. -/
def toUpperS (s : String) : String := String.mk (s.toList.map upChar)

def isDigitChar (c : Char) : Bool := 48 ≤ c.toNat ∧ c.toNat ≤ 57

/-- `strconv.ParseInt` / `strconv.Atoi` on the decimal literals the
lexer produces (sign-free digit strings; base prefixes and 64-bit
overflow do not arise in any claim and are not modelled). -/
def parseIntLit (s : String) : Option Int :=
  let cs := s.toList
  if cs ≠ [] ∧ cs.all isDigitChar then
    some (Int.ofNat (cs.foldl (fun acc c => acc * 10 + (c.toNat - 48)) 0))
  else none

/-- `strconv.ParseFloat` validity on lexer number literals: digits with
exactly one dot and at least one digit (approximation; no claim
inspects float values). -/
def parseFloatOk (s : String) : Bool :=
  let cs := s.toList
  cs.any isDigitChar ∧ cs.count '.' = 1 ∧ cs.all (fun c => isDigitChar c ∨ c = '.')

def containsDot (s : String) : Bool := s.toList.contains '.'

/-- `parseNumberLiteral`: a dot in the literal selects float parsing,
otherwise integer parsing; malformed literals produce an error. -/
def parseNumberLiteral (p : Parser) : GoRet Expression × Parser :=
  if containsDot p.curToken.literal then
    if parseFloatOk p.curToken.literal then
      ((some (.literal (.floatVal p.curToken.literal)), none), nextToken p)
    else
      ((none, some ("could not parse " ++ p.curToken.literal ++ " as float")), p)
  else
    match parseIntLit p.curToken.literal with
    | some v => ((some (.literal (.intVal v)), none), nextToken p)
    | none => ((none, some ("could not parse " ++ p.curToken.literal ++ " as integer")), p)

/-- `parseStringLiteral`. -/
def parseStringLiteral (p : Parser) : GoRet Expression × Parser :=
  ((some (.literal (.strVal p.curToken.literal)), none), nextToken p)

/-- The alias suffix of `parseTableReference`: optional `AS IDENT` or
implicit-alias `IDENT` (shared tail of both branches of the source). -/
def parseTableAlias (table : TableReference) (p : Parser) : GoRet TableReference × Parser :=
  if curTokenIs p .AS then
    let p := nextToken p
    if ¬ curTokenIs p .IDENT then
      ((none, some ("expected alias after AS, got " ++ p.curToken.literal)), p)
    else
      ((some { table with Alias := p.curToken.literal }, none), nextToken p)
  else if curTokenIs p .IDENT then
    ((some { table with Alias := p.curToken.literal }, none), nextToken p)
  else
    ((some table, none), p)

/-- `parseTableReference`: `IDENT ['.' IDENT] [[AS] IDENT]`. -/
def parseTableReference (p : Parser) : GoRet TableReference × Parser :=
  if ¬ curTokenIs p .IDENT then
    ((none, some ("expected table name, got " ++ p.curToken.literal)), p)
  else
    let firstIdent := p.curToken.literal
    let p := nextToken p
    if curTokenIs p .DOT then
      let p := nextToken p
      if ¬ curTokenIs p .IDENT then
        ((none, some ("expected table name after dot, got " ++ p.curToken.literal)), p)
      else
        parseTableAlias { Schema := firstIdent, Name := p.curToken.literal } (nextToken p)
    else
      parseTableAlias { Name := firstIdent } p

/-- `parseTopClause`: `TOP NUMBER [PERCENT]`. -/
def parseTopClause (p : Parser) : GoRet TopClause × Parser :=
  if ¬ curTokenIs p .TOP then
    ((none, some ("expected TOP, got " ++ p.curToken.literal)), p)
  else
    let p := nextToken p
    if ¬ curTokenIs p .NUMBER then
      ((none, some ("expected number after TOP, got " ++ p.curToken.literal)), p)
    else
      match parseIntLit p.curToken.literal with
      | none => ((none, some ("invalid number in TOP clause: " ++ p.curToken.literal)), p)
      | some count =>
          let p := nextToken p
          if curTokenIs p .IDENT ∧ toUpperS p.curToken.literal = "PERCENT" then
            ((some { Count := count, Percent := true }, none), nextToken p)
          else
            ((some { Count := count, Percent := false }, none), p)

/-- Closing step of `parseFunctionCall`: require `)` at the current
token and consume it. -/
def finishFunctionCall (name : String) (arguments : List Expression) (p : Parser) :
    GoRet Expression × Parser :=
  if ¬ curTokenIs p .RPAREN then
    ((none, some ("expected ')' to close function call, got " ++ p.curToken.literal)), p)
  else
    ((some (.funcCall name arguments), none), nextToken p)

mutual

/-- `parseExpression` (delegates to the infix chain). -/
def parseExpression (fuel : Nat) (p : Parser) : PRes Expression :=
  match fuel with
  | 0 => none
  | f + 1 => parseInfixExpression f p

/-- `parseInfixExpression`: one primary, then the left-associative
operator chain. -/
def parseInfixExpression (fuel : Nat) (p : Parser) : PRes Expression :=
  match fuel with
  | 0 => none
  | f + 1 =>
      bindR (parsePrimaryExpression f p) (fun left p => parseInfixLoop f left p)

/-- The `for p.isInfixOperator(...)` loop of `parseInfixExpression`:
each iteration folds the next primary into a new pool-obtained
`BinaryExpression` used as the new left operand. -/
def parseInfixLoop (fuel : Nat) (left : Expression) (p : Parser) : PRes Expression :=
  match fuel with
  | 0 => none
  | f + 1 =>
      if isInfixOperator p.curToken.type then
        let operator := p.curToken.literal
        let p := nextToken p
        bindR (parsePrimaryExpression f p) (fun right p =>
          let p := getBinaryExpression p
          parseInfixLoop f (.binary left operator right) p)
      else
        some ((some left, none), p)

/-- `parsePrimaryExpression`: dispatch on the current token kind. -/
def parsePrimaryExpression (fuel : Nat) (p : Parser) : PRes Expression :=
  match fuel with
  | 0 => none
  | f + 1 =>
      match p.curToken.type with
      | .IDENT => parseIdentifierExpression f p
      | .NUMBER => some (parseNumberLiteral p)
      | .STRING => some (parseStringLiteral p)
      | .ASTERISK => some ((some (.star ""), none), nextToken p)
      | .LPAREN => parseGroupedExpression f p
      | _ => some ((none, some ("unexpected token in expression: " ++ p.curToken.literal)), p)

/-- `parseIdentifierExpression`: qualified column / table-qualified
star / function call / simple column (pool-obtained ColumnReference). -/
def parseIdentifierExpression (fuel : Nat) (p : Parser) : PRes Expression :=
  match fuel with
  | 0 => none
  | f + 1 =>
      let firstIdent := p.curToken.literal
      let p := nextToken p
      if curTokenIs p .DOT then
        let p := nextToken p
        if ¬ curTokenIs p .IDENT ∧ ¬ curTokenIs p .ASTERISK then
          some ((none, some ("expected column name after dot, got " ++ p.curToken.literal)), p)
        else if curTokenIs p .ASTERISK then
          some ((some (.star firstIdent), none), nextToken p)
        else
          let p := getColumnReference p
          some ((some (.columnRef firstIdent p.curToken.literal), none), nextToken p)
      else if curTokenIs p .LPAREN then
        parseFunctionCall f firstIdent p
      else
        let p := getColumnReference p
        some ((some (.columnRef "" firstIdent), none), p)

/-- `parseFunctionCall`: argument list between parentheses. -/
def parseFunctionCall (fuel : Nat) (name : String) (p : Parser) : PRes Expression :=
  match fuel with
  | 0 => none
  | f + 1 =>
      if ¬ curTokenIs p .LPAREN then
        some ((none, some ("expected '(' for function call, got " ++ p.curToken.literal)), p)
      else
        let p := nextToken p
        if ¬ curTokenIs p .RPAREN then
          bindR (parseExpression f p) (fun arg p =>
            bindR (parseFunctionArgsLoop f p) (fun rest p =>
              some (finishFunctionCall name (arg :: rest) p)))
        else
          some (finishFunctionCall name [] p)

/-- The comma loop of `parseFunctionCall` collecting the remaining
arguments. -/
def parseFunctionArgsLoop (fuel : Nat) (p : Parser) : PRes (List Expression) :=
  match fuel with
  | 0 => none
  | f + 1 =>
      if curTokenIs p .COMMA then
        let p := nextToken p
        bindR (parseExpression f p) (fun arg p =>
          bindR (parseFunctionArgsLoop f p) (fun rest p =>
            some ((some (arg :: rest), none), p)))
      else
        some ((some [], none), p)

/-- `parseGroupedExpression`: consume `(`, parse the inner expression,
then `expectPeek(RPAREN)` exactly as the source does. -/
def parseGroupedExpression (fuel : Nat) (p : Parser) : PRes Expression :=
  match fuel with
  | 0 => none
  | f + 1 =>
      let p := nextToken p
      bindR (parseExpression f p) (fun exp p =>
        match expectPeek p .RPAREN with
        | (true, p) => some ((some exp, none), p)
        | (false, p) => some ((none, some "expected ')' to close grouped expression"), p))

end

/-- The comma loop of `parseSelectList` (stars allowed after commas). -/
def parseSelectListLoop (fuel : Nat) (p : Parser) : PRes (List Expression) :=
  match fuel with
  | 0 => none
  | f + 1 =>
      if curTokenIs p .COMMA then
        let p := nextToken p
        if curTokenIs p .ASTERISK then
          let p := nextToken p
          bindR (parseSelectListLoop f p) (fun rest p =>
            some ((some (.star "" :: rest), none), p))
        else
          bindR (parseExpression f p) (fun expr p =>
            bindR (parseSelectListLoop f p) (fun rest p =>
              some ((some (expr :: rest), none), p)))
      else
        some ((some [], none), p)

/-- `parseSelectList`: leading `*` returns immediately, otherwise one
expression followed by the comma loop. -/
def parseSelectList (fuel : Nat) (p : Parser) : PRes (List Expression) :=
  match fuel with
  | 0 => none
  | f + 1 =>
      if curTokenIs p .ASTERISK then
        some ((some [.star ""], none), nextToken p)
      else
        bindR (parseExpression f p) (fun expr p =>
          bindR (parseSelectListLoop f p) (fun rest p =>
            some ((some (expr :: rest), none), p)))

/-- The comma loop of `parseFromClause`. -/
def parseFromLoop (fuel : Nat) (p : Parser) : PRes (List TableReference) :=
  match fuel with
  | 0 => none
  | f + 1 =>
      if curTokenIs p .COMMA then
        let p := nextToken p
        bindR (some (parseTableReference p)) (fun table p =>
          bindR (parseFromLoop f p) (fun rest p =>
            some ((some (table :: rest), none), p)))
      else
        some ((some [], none), p)

/-- `parseFromClause`: `FROM tableRef (',' tableRef)*`. -/
def parseFromClause (fuel : Nat) (p : Parser) : PRes FromClause :=
  match fuel with
  | 0 => none
  | f + 1 =>
      if ¬ curTokenIs p .FROM then
        some ((none, some ("expected FROM, got " ++ p.curToken.literal)), p)
      else
        let p := nextToken p
        bindR (some (parseTableReference p)) (fun table p =>
          bindR (parseFromLoop f p) (fun rest p =>
            some ((some { Tables := table :: rest }, none), p)))

/-- Shared tail of `parseJoinClause`: table reference, `ON`, condition;
pool-releases the join node on each error path (as the source does). -/
def parseJoinClauseRest (fuel : Nat) (joinType : String) (p : Parser) : PRes JoinClause :=
  match parseTableReference p with
  | ((some table, none), p) =>
      if ¬ curTokenIs p .ON then
        some ((none, some ("expected ON after JOIN table, got " ++ p.curToken.literal)),
          putJoinClause p)
      else
        let p := nextToken p
        match parseExpression fuel p with
        | none => none
        | some ((some condition, none), p) =>
            some ((some { JoinType := joinType, Table := table,
                          Condition := some condition }, none), p)
        | some ((_, e), p) => some ((none, e), putJoinClause p)
  | ((_, e), p) => some ((none, e), putJoinClause p)

/-- `parseJoinClause`: obtain a pooled node, read the optional join
type keyword (with the source's `nextToken`-then-`expectPeek(JOIN)`
sequence), then the table/ON/condition tail. -/
def parseJoinClause (fuel : Nat) (p0 : Parser) : PRes JoinClause :=
  match fuel with
  | 0 => none
  | f + 1 =>
      let p := getJoinClause p0
      if curTokenIs p .INNER then
        let p := nextToken p
        match expectPeek p .JOIN with
        | (false, p) => some ((none, some "expected JOIN after INNER"), putJoinClause p)
        | (true, p) => parseJoinClauseRest f "INNER" p
      else if curTokenIs p .LEFT then
        let p := nextToken p
        match expectPeek p .JOIN with
        | (false, p) => some ((none, some "expected JOIN after LEFT"), putJoinClause p)
        | (true, p) => parseJoinClauseRest f "LEFT" p
      else if curTokenIs p .RIGHT then
        let p := nextToken p
        match expectPeek p .JOIN with
        | (false, p) => some ((none, some "expected JOIN after RIGHT"), putJoinClause p)
        | (true, p) => parseJoinClauseRest f "RIGHT" p
      else if curTokenIs p .FULL then
        let p := nextToken p
        match expectPeek p .JOIN with
        | (false, p) => some ((none, some "expected JOIN after FULL"), putJoinClause p)
        | (true, p) => parseJoinClauseRest f "FULL" p
      else if curTokenIs p .JOIN then
        parseJoinClauseRest f "INNER" (nextToken p)
      else
        parseJoinClauseRest f "" p

/-- The join loop of `parseSelectStatement`. -/
def parseJoinsLoop (fuel : Nat) (p : Parser) : PRes (List JoinClause) :=
  match fuel with
  | 0 => none
  | f + 1 =>
      if curTokenIs p .JOIN ∨ curTokenIs p .INNER ∨ curTokenIs p .LEFT ∨
          curTokenIs p .RIGHT ∨ curTokenIs p .FULL then
        bindR (parseJoinClause f p) (fun joinClause p =>
          bindR (parseJoinsLoop f p) (fun rest p =>
            some ((some (joinClause :: rest), none), p)))
      else
        some ((some [], none), p)

/-- The comma loop of `parseGroupByClause`. -/
def parseGroupByLoop (fuel : Nat) (p : Parser) : PRes (List Expression) :=
  match fuel with
  | 0 => none
  | f + 1 =>
      if curTokenIs p .COMMA then
        let p := nextToken p
        bindR (parseExpression f p) (fun expr p =>
          bindR (parseGroupByLoop f p) (fun rest p =>
            some ((some (expr :: rest), none), p)))
      else
        some ((some [], none), p)

/-- `parseGroupByClause`: `GROUP`, then the source's
`nextToken`-then-`expectPeek(BY)` sequence, then the expression list. -/
def parseGroupByClause (fuel : Nat) (p : Parser) : PRes (List Expression) :=
  match fuel with
  | 0 => none
  | f + 1 =>
      if ¬ curTokenIs p .GROUP then
        some ((none, some ("expected GROUP, got " ++ p.curToken.literal)), p)
      else
        let p := nextToken p
        match expectPeek p .BY with
        | (false, p) => some ((none, some "expected BY after GROUP"), p)
        | (true, p) =>
            let p := nextToken p
            bindR (parseExpression f p) (fun expr p =>
              bindR (parseGroupByLoop f p) (fun rest p =>
                some ((some (expr :: rest), none), p)))

/-- `parseOrderByItem`: an expression with a default `ASC` direction,
overridden by a trailing `ASC`/`DESC` identifier. -/
def parseOrderByItem (fuel : Nat) (p : Parser) : PRes OrderByClause :=
  match fuel with
  | 0 => none
  | f + 1 =>
      bindR (parseExpression f p) (fun expr p =>
        if curTokenIs p .IDENT then
          let direction := toUpperS p.curToken.literal
          if direction = "ASC" ∨ direction = "DESC" then
            some ((some { Expr := expr, Direction := direction }, none), nextToken p)
          else
            some ((some { Expr := expr, Direction := "ASC" }, none), p)
        else
          some ((some { Expr := expr, Direction := "ASC" }, none), p))

/-- The comma loop of `parseOrderByClause`. -/
def parseOrderByLoop (fuel : Nat) (p : Parser) : PRes (List OrderByClause) :=
  match fuel with
  | 0 => none
  | f + 1 =>
      if curTokenIs p .COMMA then
        let p := nextToken p
        bindR (parseOrderByItem f p) (fun clause p =>
          bindR (parseOrderByLoop f p) (fun rest p =>
            some ((some (clause :: rest), none), p)))
      else
        some ((some [], none), p)

/-- `parseOrderByClause`: `ORDER`, then the source's
`nextToken`-then-`expectPeek(BY)` sequence, then the item list. -/
def parseOrderByClause (fuel : Nat) (p : Parser) : PRes (List OrderByClause) :=
  match fuel with
  | 0 => none
  | f + 1 =>
      if ¬ curTokenIs p .ORDER then
        some ((none, some ("expected ORDER, got " ++ p.curToken.literal)), p)
      else
        let p := nextToken p
        match expectPeek p .BY with
        | (false, p) => some ((none, some "expected BY after ORDER"), p)
        | (true, p) =>
            let p := nextToken p
            bindR (parseOrderByItem f p) (fun clause p =>
              bindR (parseOrderByLoop f p) (fun rest p =>
                some ((some (clause :: rest), none), p)))

/-- `parseSelectStatement`: pool-obtain the statement node, then the
clause sequence.  Error propagation follows the source exactly: only
the initial not-SELECT check releases the node back to the pool; every
later error path returns without releasing it. -/
def parseSelectStatement (fuel : Nat) (p0 : Parser) : PRes SelectStatement :=
  match fuel with
  | 0 => none
  | f + 1 =>
      let p := getSelectStatement p0
      if ¬ curTokenIs p .SELECT then
        some ((none, some ("expected SELECT, got " ++ p.curToken.literal)),
          putSelectStatement p)
      else
        let p := nextToken p
        let (distinct, p) :=
          if curTokenIs p .DISTINCT then (true, nextToken p) else (false, p)
        let topStep : GoRet (Option TopClause) × Parser :=
          if curTokenIs p .TOP then
            match parseTopClause p with
            | ((some t, none), p) => ((some (some t), none), p)
            | ((_, e), p) => ((none, e), p)
          else ((some none, none), p)
        match topStep with
        | ((_, some e), p) => some ((none, some e), p)
        | ((top, none), p) =>
            bindR (parseSelectList f p) (fun columns p =>
              let fromStep : PRes (Option FromClause) :=
                if curTokenIs p .FROM then
                  match parseFromClause f p with
                  | none => none
                  | some ((some fc, none), p) => some ((some (some fc), none), p)
                  | some ((_, e), p) => some ((none, e), p)
                else some ((some none, none), p)
              bindR fromStep (fun fromClause p =>
                bindR (parseJoinsLoop f p) (fun joins p =>
                  let whereStep : PRes (Option Expression) :=
                    if curTokenIs p .WHERE then
                      match parseExpression f (nextToken p) with
                      | none => none
                      | some ((some w, none), p) => some ((some (some w), none), p)
                      | some ((_, e), p) => some ((none, e), p)
                    else some ((some none, none), p)
                  bindR whereStep (fun whereExpr p =>
                    let groupStep : PRes (List Expression) :=
                      if curTokenIs p .GROUP then parseGroupByClause f p
                      else some ((some [], none), p)
                    bindR groupStep (fun groupBy p =>
                      let havingStep : PRes (Option Expression) :=
                        if curTokenIs p .HAVING then
                          match parseExpression f (nextToken p) with
                          | none => none
                          | some ((some h, none), p) => some ((some (some h), none), p)
                          | some ((_, e), p) => some ((none, e), p)
                        else some ((some none, none), p)
                      bindR havingStep (fun having p =>
                        let orderStep : PRes (List OrderByClause) :=
                          if curTokenIs p .ORDER then parseOrderByClause f p
                          else some ((some [], none), p)
                        bindR orderStep (fun orderBy p =>
                          some ((some { Distinct := distinct,
                                        Top := top.join,
                                        Columns := columns,
                                        From := fromClause.join,
                                        Joins := joins,
                                        Where := whereExpr.join,
                                        GroupBy := groupBy,
                                        Having := having.join,
                                        OrderBy := orderBy }, none), p))))))))

/-- `ParseStatement`: dispatch on the current token kind; the
Insert/Update/Delete parsers are the source's not-implemented stubs. -/
def parseStatement (fuel : Nat) (p : Parser) : PRes Statement :=
  match p.curToken.type with
  | .SELECT =>
      match parseSelectStatement fuel p with
      | none => none
      | some ((s, e), p) => some ((s.map .selectStmt, e), p)
  | .INSERT => some ((none, some "INSERT statement parsing not implemented yet"), p)
  | .UPDATE => some ((none, some "UPDATE statement parsing not implemented yet"), p)
  | .DELETE => some ((none, some "DELETE statement parsing not implemented yet"), p)
  | _ => some ((none, some ("unsupported statement type: " ++ p.curToken.literal)), p)

/-- Returned AST value of a parse result (`none` when fuel ran out or
the source returned `nil`). -/
def resVal {α : Type} (r : PRes α) : Option α :=
  match r with
  | some ((a, _), _) => a
  | none => none

/-- Returned error value of a parse result. -/
def resErr {α : Type} (r : PRes α) : Option String :=
  match r with
  | some ((_, e), _) => e
  | none => none

/-- Accumulated `p.Errors()` at the return point. -/
def resErrors {α : Type} (r : PRes α) : List String :=
  match r with
  | some (_, p) => p.errors
  | none => []

/-- Pool counters at the return point. -/
def resPool {α : Type} (r : PRes α) : PoolState :=
  match r with
  | some (_, p) => p.pool
  | none => {}

/-- Token with the fixed position 1:1 (positions only show up inside
diagnostic strings that no theorem inspects). -/
def tok (ty : TokenType) (lit : String) : Token :=
  { type := ty, literal := lit, line := 1, column := 1 }

/-- Current token at the return point (the first unconsumed token). -/
def resCur {α : Type} (r : PRes α) : Option Token :=
  match r with
  | some (_, p) => some p.curToken
  | none => none

/-- The select statement inside a returned `Statement`, if any. -/
def selectOf : Option Statement → Option SelectStatement
  | some (.selectStmt s) => some s
  | none => none

/-- Join types of a returned statement's joins, in source order. -/
def joinTypesOf (r : PRes Statement) : List String :=
  ((selectOf (resVal r)).map (fun s => s.Joins.map (fun j => j.JoinType))).getD []

/-! ## Concrete inputs used by the claims -/

/-- Tokens of `SELECT * FROM a INNER JOIN b ON a.x = b.x`. -/
def c1FailToks : List Token :=
  [tok .SELECT "SELECT", tok .ASTERISK "*", tok .FROM "FROM", tok .IDENT "a",
   tok .INNER "INNER", tok .JOIN "JOIN", tok .IDENT "b", tok .ON "ON",
   tok .IDENT "a", tok .DOT ".", tok .IDENT "x", tok .ASSIGN "=",
   tok .IDENT "b", tok .DOT ".", tok .IDENT "x"]

/-- Tokens of `SELECT * FROM a JOIN b ON a.x = b.x` (bare JOIN). -/
def c1BareToks : List Token :=
  [tok .SELECT "SELECT", tok .ASTERISK "*", tok .FROM "FROM", tok .IDENT "a",
   tok .JOIN "JOIN", tok .IDENT "b", tok .ON "ON",
   tok .IDENT "a", tok .DOT ".", tok .IDENT "x", tok .ASSIGN "=",
   tok .IDENT "b", tok .DOT ".", tok .IDENT "x"]

/-- Tokens of `SELECT a FROM t1, t2 WHERE a > 5 ORDER BY a DESC`. -/
def c2Toks : List Token :=
  [tok .SELECT "SELECT", tok .IDENT "a", tok .FROM "FROM", tok .IDENT "t1",
   tok .COMMA ",", tok .IDENT "t2", tok .WHERE "WHERE", tok .IDENT "a",
   tok .GT ">", tok .NUMBER "5", tok .ORDER "ORDER", tok .BY "BY",
   tok .IDENT "a", tok .IDENT "DESC"]

/-- The same statement with the keyword `BY` doubled (`ORDER BY BY`),
the only shape the source's `nextToken`-then-`expectPeek(BY)` sequence
accepts. -/
def c2DoubledToks : List Token :=
  [tok .SELECT "SELECT", tok .IDENT "a", tok .FROM "FROM", tok .IDENT "t1",
   tok .COMMA ",", tok .IDENT "t2", tok .WHERE "WHERE", tok .IDENT "a",
   tok .GT ">", tok .NUMBER "5", tok .ORDER "ORDER", tok .BY "BY",
   tok .BY "BY", tok .IDENT "a", tok .IDENT "DESC"]

/-- Tokens of `SELECT a` (used with a cancellation point). -/
def c3Toks : List Token := [tok .SELECT "SELECT", tok .IDENT "a"]

/-- Tokens of `SELECT (1)` (used with a cancellation point). -/
def c4Toks : List Token :=
  [tok .SELECT "SELECT", tok .LPAREN "(", tok .NUMBER "1", tok .RPAREN ")"]

/-- Tokens of `SELECT * FROM t AS u` (used with a cancellation point). -/
def c5Toks : List Token :=
  [tok .SELECT "SELECT", tok .ASTERISK "*", tok .FROM "FROM", tok .IDENT "t",
   tok .AS "AS", tok .IDENT "u"]

/-- Tokens of `SELECT (a) FROM t`. -/
def c7Toks : List Token :=
  [tok .SELECT "SELECT", tok .LPAREN "(", tok .IDENT "a", tok .RPAREN ")",
   tok .FROM "FROM", tok .IDENT "t"]

/-- Expression-level tokens `( a )`. -/
def c7ExprToks : List Token :=
  [tok .LPAREN "(", tok .IDENT "a", tok .RPAREN ")"]

/-- Expression-level tokens `( a ) )` with a spurious second `)`. -/
def c7DoubleToks : List Token :=
  [tok .LPAREN "(", tok .IDENT "a", tok .RPAREN ")", tok .RPAREN ")"]

/-- Tokens of `SELECT TOP x FROM t` (`x` is not a number). -/
def c8Toks : List Token :=
  [tok .SELECT "SELECT", tok .TOP "TOP", tok .IDENT "x", tok .FROM "FROM",
   tok .IDENT "t"]

/-- Tokens of `INSERT INTO t VALUES (1)` (`INTO`/`VALUES` are not
reserved words of the lexer and come through as identifiers). -/
def c9InsertToks : List Token :=
  [tok .INSERT "INSERT", tok .IDENT "INTO", tok .IDENT "t",
   tok .IDENT "VALUES", tok .LPAREN "(", tok .NUMBER "1", tok .RPAREN ")"]

/-- Tokens of `CREATE TABLE t` (leading keyword none of
SELECT/INSERT/UPDATE/DELETE). -/
def c9CreateToks : List Token :=
  [tok .CREATE "CREATE", tok .IDENT "TABLE", tok .IDENT "t"]

/-! ## Left-associative infix chaining (C6) -/

/-- The parser state just before the select list of `SELECT (1)` is
parsed, with cancellation observed from the third advance on. -/
def c4Stuck : Parser :=
  { curToken := tok .LPAREN "(", peekToken := tok .NUMBER "1",
    restTokens := [tok .RPAREN ")"], errors := [], cancelAt := some 3,
    adv := 3, pool := { selectGets := 1 } }

/-! ## Result-shape well-formedness -/

/-- A Go return pair is well formed when exactly one side is set:
a value with no error, or no value with an error. -/
def retOk {α : Type} (r : GoRet α) : Prop :=
  (r.1.isSome = true ∧ r.2 = none) ∨ (r.1 = none ∧ r.2.isSome = true)

/-- A parse result is well formed when it ran out of fuel or returned
a well-formed pair. -/
def resOk {α : Type} : PRes α → Prop
  | none => True
  | some (r, _) => retOk r

/-! ## Claim theorems on concrete inputs -/

/-- C1 (the code contradicts it): on the explicitly typed join
`SELECT * FROM a INNER JOIN b ON a.x = b.x` the parser does not
succeed: `parseJoinClause` advances past `INNER`, landing on `JOIN`,
and then calls `expectPeek(JOIN)` which inspects the token after
`JOIN`; the statement is rejected with `expected JOIN after INNER` and
a nil AST.  The bare-JOIN half of the claim does hold: the same
statement without `INNER` succeeds and yields one `JoinClause` with
`joinType = "INNER"`. -/
theorem c1_typed_join_rejected :
    resVal (parseStatement 100 (mkParser c1FailToks none)) = none
    ∧ resErr (parseStatement 100 (mkParser c1FailToks none)) =
        some "expected JOIN after INNER"
    ∧ resErr (parseStatement 100 (mkParser c1BareToks none)) = none
    ∧ joinTypesOf (parseStatement 100 (mkParser c1BareToks none)) = ["INNER"] :=
  ⟨rfl, rfl, rfl, rfl⟩

/-- C2 (the code contradicts it): `SELECT a FROM t1, t2 WHERE a > 5
ORDER BY a DESC` is rejected with `expected BY after ORDER`, because
`parseOrderByClause` advances onto `BY` and then calls
`expectPeek(BY)`, which inspects the token after `BY`.  Only the
malformed doubled-keyword form `ORDER BY BY a DESC` is accepted, and on
it the rest of the claim's expectations hold: two FROM tables, a WHERE
condition, and one OrderByClause with direction DESC. -/
theorem c2_order_by_rejected :
    resVal (parseStatement 100 (mkParser c2Toks none)) = none
    ∧ resErr (parseStatement 100 (mkParser c2Toks none)) =
        some "expected BY after ORDER"
    ∧ resVal (parseStatement 100 (mkParser c2DoubledToks none)) =
        some (.selectStmt
          { Columns := [.columnRef "" "a"],
            From := some { Tables := [{ Name := "t1" }, { Name := "t2" }] },
            Where := some (.binary (.columnRef "" "a") ">" (.literal (.intVal 5))),
            OrderBy := [{ Expr := .columnRef "" "a", Direction := "DESC" }] }) :=
  ⟨rfl, rfl, rfl⟩

/-- C3 counterexample: with the cancellation signal first observed at
the third token advance, `SELECT a` still parses successfully (non-nil
AST, nil error) while the accumulated diagnostics list is non-empty —
refuting the claimed dichotomy of (AST, empty diagnostics) versus
(nil, non-empty diagnostics). -/
theorem c3_success_with_diagnostics :
    (resVal (parseStatement 100 (mkParser c3Toks (some 3)))).isSome = true
    ∧ resErr (parseStatement 100 (mkParser c3Toks (some 3))) = none
    ∧ resErrors (parseStatement 100 (mkParser c3Toks (some 3))) =
        ["parsing cancelled due to timeout"] :=
  ⟨rfl, rfl, rfl⟩

/-- C5 counterexample: on `SELECT * FROM t AS u` with cancellation
first observed at the fifth advance, the parse still terminates
successfully and the error list holds two cancellation errors — one per
attempted advance after cancellation, not exactly one as claimed. -/
theorem c5_two_cancellation_errors :
    (resVal (parseStatement 100 (mkParser c5Toks (some 5)))).isSome = true
    ∧ resErrors (parseStatement 100 (mkParser c5Toks (some 5))) =
        ["parsing cancelled due to timeout", "parsing cancelled due to timeout"] :=
  ⟨rfl, rfl⟩

/-- C7 (the code contradicts it): a parenthesized sub-expression in
primary position is rejected: both `SELECT (a) FROM t` and the bare
expression `( a )` fail with `expected ')' to close grouped
expression`, because `parseGroupedExpression` calls `expectPeek(RPAREN)`
while already positioned on the closing parenthesis.  Only `( a ) )`
with a spurious second `)` is accepted; it returns the inner expression
and leaves the second `)` as the current token. -/
theorem c7_grouped_expression_rejected :
    resVal (parseStatement 100 (mkParser c7Toks none)) = none
    ∧ resErr (parseStatement 100 (mkParser c7Toks none)) =
        some "expected ')' to close grouped expression"
    ∧ resErr (parseExpression 100 (mkParser c7ExprToks none)) =
        some "expected ')' to close grouped expression"
    ∧ resVal (parseExpression 100 (mkParser c7DoubleToks none)) =
        some (.columnRef "" "a")
    ∧ resCur (parseExpression 100 (mkParser c7DoubleToks none)) =
        some (tok .RPAREN ")") :=
  ⟨rfl, rfl, rfl, rfl, rfl⟩

/-- C8 (the code contradicts it): on `SELECT TOP x FROM t` the TOP
clause fails, and `parseSelectStatement` propagates the error without
calling `PutSelectStatement`: the pool-obtained statement node leaks
(one get, zero puts).  By contrast, on the failing typed join of C1 the
join node is released (one join get, one join put) while the statement
node still leaks. -/
theorem c8_pool_leak_on_error :
    resErr (parseStatement 100 (mkParser c8Toks none)) =
        some "expected number after TOP, got x"
    ∧ resPool (parseStatement 100 (mkParser c8Toks none)) =
        { selectGets := 1, selectPuts := 0 }
    ∧ resPool (parseStatement 100 (mkParser c1FailToks none)) =
        { selectGets := 1, selectPuts := 0, joinGets := 1, joinPuts := 1 } :=
  ⟨rfl, rfl, rfl⟩

/-! ## Cancellation behaviour of nextToken -/

/-- Once cancellation is observed, `nextToken` only appends the
cancellation error and leaves every other field unchanged. -/
theorem nextToken_cancelled (p : Parser) (h : ctxDone p = true) :
    nextToken p = { p with errors := p.errors ++ ["parsing cancelled due to timeout"] } := by
  simp [nextToken, h]

/-- C5 (amended): once the cancellation signal is observed, each
token-advance attempt appends one cancellation error (so the total
number of cancellation errors equals the number of attempts, not one)
and never advances: current token, lookahead and remaining stream are
unchanged, and cancellation remains observed at the next attempt. -/
theorem c5_cancelled_advance_attempt (p : Parser) (h : ctxDone p = true) :
    nextToken p = { p with errors := p.errors ++ ["parsing cancelled due to timeout"] }
    ∧ (nextToken p).curToken = p.curToken
    ∧ (nextToken p).peekToken = p.peekToken
    ∧ (nextToken p).restTokens = p.restTokens
    ∧ ctxDone (nextToken p) = true := by
  have h1 := nextToken_cancelled p h
  refine ⟨h1, ?_, ?_, ?_, ?_⟩ <;> rw [h1]
  exact h

/-- Witness for C5 (amended) at a concrete cancelled state. -/
theorem c5_cancelled_advance_attempt_witness :
    ctxDone (mkParser c3Toks (some 0)) = true
    ∧ nextToken (mkParser c3Toks (some 0)) =
        { mkParser c3Toks (some 0) with
          errors := (mkParser c3Toks (some 0)).errors ++
            ["parsing cancelled due to timeout"] } :=
  ⟨rfl, (c5_cancelled_advance_attempt (mkParser c3Toks (some 0)) rfl).1⟩

/-! ## Statement dispatch (C9) -/

/-- C9: the statement dispatch of `ParseStatement`: any leading token
other than SELECT/INSERT/UPDATE/DELETE (in particular the statement
keywords CREATE, DROP, ALTER) yields the `unsupported statement type`
diagnostic, and the INSERT/UPDATE/DELETE branches yield the explicit
not-implemented diagnostics; all four return a nil AST and an
unchanged parser state rather than crashing. -/
theorem c9_statement_dispatch (p : Parser) (fuel : Nat) :
    ((p.curToken.type ≠ .SELECT ∧ p.curToken.type ≠ .INSERT ∧
        p.curToken.type ≠ .UPDATE ∧ p.curToken.type ≠ .DELETE) →
      parseStatement fuel p =
        some ((none, some ("unsupported statement type: " ++ p.curToken.literal)), p))
    ∧ (p.curToken.type = .INSERT →
      parseStatement fuel p =
        some ((none, some "INSERT statement parsing not implemented yet"), p))
    ∧ (p.curToken.type = .UPDATE →
      parseStatement fuel p =
        some ((none, some "UPDATE statement parsing not implemented yet"), p))
    ∧ (p.curToken.type = .DELETE →
      parseStatement fuel p =
        some ((none, some "DELETE statement parsing not implemented yet"), p)) := by
  obtain ⟨⟨ty, lit, ln, col⟩, pk, rest, errs, ca, adv, pool⟩ := p
  refine ⟨fun h => ?_, fun h => ?_, fun h => ?_, fun h => ?_⟩
  · obtain ⟨h1, h2, h3, h4⟩ := h
    cases ty <;> simp_all <;> rfl
  · cases h; rfl
  · cases h; rfl
  · cases h; rfl

/-- Witness for C9 on `INSERT INTO t VALUES (1)` and `CREATE TABLE t`. -/
theorem c9_statement_dispatch_witness :
    parseStatement 10 (mkParser c9InsertToks none) =
      some ((none, some "INSERT statement parsing not implemented yet"),
        mkParser c9InsertToks none)
    ∧ parseStatement 10 (mkParser c9CreateToks none) =
      some ((none, some "unsupported statement type: CREATE"),
        mkParser c9CreateToks none) :=
  ⟨(c9_statement_dispatch (mkParser c9InsertToks none) 10).2.1 rfl,
   (c9_statement_dispatch (mkParser c9CreateToks none) 10).1
     ⟨by decide, by decide, by decide, by decide⟩⟩

/-! ## Non-termination under cancellation (C4) -/

/-- Once cancellation is observed with the current token `(` in primary
position, the whole expression-parser family diverges: the
`parseGroupedExpression` / `parseExpression` cycle consumes no tokens
(appending one cancellation error per cycle) and every fuel bound is
exhausted. -/
theorem expr_stuck_on_lparen :
    ∀ (fuel : Nat) (p : Parser), ctxDone p = true → p.curToken.type = .LPAREN →
      parseExpression fuel p = none ∧ parseInfixExpression fuel p = none
      ∧ parsePrimaryExpression fuel p = none ∧ parseGroupedExpression fuel p = none := by
  intro fuel
  induction fuel with
  | zero => exact fun p _ _ => ⟨rfl, rfl, rfl, rfl⟩
  | succ f ih =>
    intro p h1 h2
    have hcur : (nextToken p).curToken.type = .LPAREN := by
      rw [nextToken_cancelled p h1]; exact h2
    have hdone : ctxDone (nextToken p) = true := by
      rw [nextToken_cancelled p h1]; exact h1
    obtain ⟨⟨ty, lit, ln, col⟩, pk, rest, errs, ca, adv, pool⟩ := p
    obtain rfl : ty = .LPAREN := h2
    have hgrp : parseGroupedExpression (f + 1) ⟨⟨.LPAREN, lit, ln, col⟩, pk, rest, errs, ca, adv, pool⟩ = none := by
      show bindR (parseExpression f (nextToken ⟨⟨.LPAREN, lit, ln, col⟩, pk, rest, errs, ca, adv, pool⟩)) _ = none
      rw [(ih _ hdone hcur).1]; rfl
    have hprim : parsePrimaryExpression (f + 1) ⟨⟨.LPAREN, lit, ln, col⟩, pk, rest, errs, ca, adv, pool⟩ = none :=
      (ih _ h1 rfl).2.2.2
    have hinf : parseInfixExpression (f + 1) ⟨⟨.LPAREN, lit, ln, col⟩, pk, rest, errs, ca, adv, pool⟩ = none := by
      show bindR (parsePrimaryExpression f ⟨⟨.LPAREN, lit, ln, col⟩, pk, rest, errs, ca, adv, pool⟩) _ = none
      rw [(ih _ h1 rfl).2.2.1]; rfl
    exact ⟨(ih _ h1 rfl).2.1, hinf, hprim, hgrp⟩

/-- C4 (the code contradicts it): with the cancellation signal first
observed at the third token advance, parsing `SELECT (1)` never
returns: for every fuel bound the modelled run exhausts it, because
`parseGroupedExpression` fails to consume `(` once `nextToken` stops
advancing and recurses into `parseExpression` on an unchanged token
position.  The remaining work after cancellation is thus unbounded,
not bounded by the depth of the production in progress. -/
theorem c4_cancelled_parse_diverges (fuel : Nat) :
    parseStatement fuel (mkParser c4Toks (some 3)) = none := by
  match fuel with
  | 0 => rfl
  | f + 1 =>
    have hsl : ∀ g, parseSelectList g c4Stuck = none := by
      intro g
      match g with
      | 0 => rfl
      | g + 1 =>
        show bindR (parseExpression g c4Stuck) _ = none
        rw [(expr_stuck_on_lparen g c4Stuck rfl rfl).1]; rfl
    show (match parseSelectStatement (f + 1) (mkParser c4Toks (some 3)) with
          | none => none
          | some ((s, e), p) => some ((s.map Statement.selectStmt, e), p)) = none
    have hss : parseSelectStatement (f + 1) (mkParser c4Toks (some 3)) = none := by
      show bindR (parseSelectList f c4Stuck) _ = none
      rw [hsl f]; rfl
    rw [hss]

theorem retOk_ok {α : Type} (a : α) : retOk (some a, none) := Or.inl ⟨rfl, rfl⟩

theorem retOk_err {α : Type} (e : String) : retOk ((none : Option α), some e) :=
  Or.inr ⟨rfl, rfl⟩

theorem bindR_ok {α β : Type} {r : PRes α} {k : α → Parser → PRes β}
    (hr : resOk r) (hk : ∀ a p, resOk (k a p)) : resOk (bindR r k) := by
  rcases r with _ | ⟨⟨a, e⟩, p⟩
  · exact trivial
  · rcases a with _ | a <;> rcases e with _ | e
    · rcases hr with ⟨h1, -⟩ | ⟨-, h2⟩
      · exact absurd h1 (by simp)
      · exact absurd h2 (by simp)
    · exact retOk_err e
    · exact hk a p
    · exact retOk_err e

theorem parseNumberLiteral_ok (p : Parser) : retOk (parseNumberLiteral p).1 := by
  unfold parseNumberLiteral
  repeat' split
  all_goals first
    | exact retOk_ok _
    | exact retOk_err _

theorem parseStringLiteral_ok (p : Parser) : retOk (parseStringLiteral p).1 :=
  retOk_ok _

theorem parseTableAlias_ok (t : TableReference) (p : Parser) :
    retOk (parseTableAlias t p).1 := by
  unfold parseTableAlias
  try dsimp only
  repeat' split
  all_goals first
    | exact retOk_ok _
    | exact retOk_err _

theorem parseTableReference_ok (p : Parser) : retOk (parseTableReference p).1 := by
  unfold parseTableReference
  try dsimp only
  repeat' split
  all_goals first
    | exact retOk_ok _
    | exact retOk_err _
    | exact parseTableAlias_ok _ _

theorem parseTopClause_ok (p : Parser) : retOk (parseTopClause p).1 := by
  unfold parseTopClause
  try dsimp only
  repeat' split
  all_goals first
    | exact retOk_ok _
    | exact retOk_err _

theorem finishFunctionCall_ok (name : String) (args : List Expression) (p : Parser) :
    retOk (finishFunctionCall name args p).1 := by
  unfold finishFunctionCall
  split
  · exact retOk_err _
  · exact retOk_ok _

theorem exprFamily_ok (fuel : Nat) :
    (∀ p, resOk (parseExpression fuel p))
    ∧ (∀ p, resOk (parseInfixExpression fuel p))
    ∧ (∀ left p, resOk (parseInfixLoop fuel left p))
    ∧ (∀ p, resOk (parsePrimaryExpression fuel p))
    ∧ (∀ p, resOk (parseIdentifierExpression fuel p))
    ∧ (∀ name p, resOk (parseFunctionCall fuel name p))
    ∧ (∀ p, resOk (parseFunctionArgsLoop fuel p))
    ∧ (∀ p, resOk (parseGroupedExpression fuel p)) := by
  induction fuel with
  | zero =>
      exact ⟨fun _ => trivial, fun _ => trivial, fun _ _ => trivial, fun _ => trivial,
             fun _ => trivial, fun _ _ => trivial, fun _ => trivial, fun _ => trivial⟩
  | succ f ih =>
      obtain ⟨ihE, ihI, ihL, ihP, ihId, ihF, ihA, ihG⟩ := ih
      refine ⟨fun p => ihI p, fun p => bindR_ok (ihP p) (fun a q => ihL a q),
        ?_, ?_, ?_, ?_, ?_, ?_⟩
      · intro left p
        unfold parseInfixLoop
        try dsimp only
        split
        · exact bindR_ok (ihP _) (fun a q => ihL _ _)
        · exact retOk_ok _
      · intro p
        unfold parsePrimaryExpression
        split
        · exact ihId _
        · exact parseNumberLiteral_ok _
        · exact parseStringLiteral_ok _
        · exact retOk_ok _
        · exact ihG _
        · exact retOk_err _
      · intro p
        unfold parseIdentifierExpression
        try dsimp only
        repeat' split
        all_goals first
          | exact retOk_err _
          | exact retOk_ok _
          | exact ihF _ _
      · intro name p
        unfold parseFunctionCall
        try dsimp only
        repeat' split
        all_goals first
          | exact retOk_err _
          | exact finishFunctionCall_ok _ _ _
          | exact bindR_ok (ihE _) (fun a q =>
              bindR_ok (ihA _) (fun r w => finishFunctionCall_ok _ _ _))
      · intro p
        unfold parseFunctionArgsLoop
        try dsimp only
        split
        · exact bindR_ok (ihE _) (fun a q => bindR_ok (ihA _) (fun r w => retOk_ok _))
        · exact retOk_ok _
      · intro p
        unfold parseGroupedExpression
        try dsimp only
        refine bindR_ok (ihE _) (fun a q => ?_)
        rcases expectPeek q .RPAREN with ⟨b, q'⟩
        cases b
        · exact retOk_err _
        · exact retOk_ok _

theorem parseSelectListLoop_ok (fuel : Nat) : ∀ p, resOk (parseSelectListLoop fuel p) := by
  induction fuel with
  | zero => exact fun _ => trivial
  | succ f ih =>
      intro p
      unfold parseSelectListLoop
      try dsimp only
      repeat' split
      all_goals first
        | exact retOk_ok _
        | exact bindR_ok (ih _) (fun a q => retOk_ok _)
        | exact bindR_ok ((exprFamily_ok f).1 _) (fun a q =>
            bindR_ok (ih _) (fun r w => retOk_ok _))

theorem parseSelectList_ok (fuel : Nat) (p : Parser) : resOk (parseSelectList fuel p) := by
  cases fuel with
  | zero => exact trivial
  | succ f =>
      unfold parseSelectList
      try dsimp only
      split
      · exact retOk_ok _
      · exact bindR_ok ((exprFamily_ok f).1 _) (fun a q =>
          bindR_ok (parseSelectListLoop_ok f _) (fun r w => retOk_ok _))

theorem parseFromLoop_ok (fuel : Nat) : ∀ p, resOk (parseFromLoop fuel p) := by
  induction fuel with
  | zero => exact fun _ => trivial
  | succ f ih =>
      intro p
      unfold parseFromLoop
      try dsimp only
      split
      · exact bindR_ok (parseTableReference_ok _) (fun a q =>
          bindR_ok (ih _) (fun r w => retOk_ok _))
      · exact retOk_ok _

theorem parseFromClause_ok (fuel : Nat) (p : Parser) : resOk (parseFromClause fuel p) := by
  cases fuel with
  | zero => exact trivial
  | succ f =>
      unfold parseFromClause
      try dsimp only
      split
      · exact retOk_err _
      · exact bindR_ok (parseTableReference_ok _) (fun a q =>
          bindR_ok (parseFromLoop_ok f _) (fun r w => retOk_ok _))

theorem parseJoinClauseRest_ok (fuel : Nat) (jt : String) (p : Parser) :
    resOk (parseJoinClauseRest fuel jt p) := by
  unfold parseJoinClauseRest
  have hT := parseTableReference_ok p
  rcases hx : parseTableReference p with ⟨⟨a, e⟩, p1⟩
  rw [hx] at hT
  rcases a with _ | t <;> rcases e with _ | e
  · rcases hT with ⟨h1, -⟩ | ⟨-, h2⟩
    · exact absurd h1 (by simp)
    · exact absurd h2 (by simp)
  · exact retOk_err _
  · dsimp only
    split
    · exact retOk_err _
    · have hE := (exprFamily_ok fuel).1 (nextToken p1)
      rcases hy : parseExpression fuel (nextToken p1) with _ | ⟨⟨a2, e2⟩, q⟩
      · exact trivial
      · rw [hy] at hE
        rcases a2 with _ | c <;> rcases e2 with _ | e2
        · rcases hE with ⟨h1, -⟩ | ⟨-, h2⟩
          · exact absurd h1 (by simp)
          · exact absurd h2 (by simp)
        · exact retOk_err _
        · exact retOk_ok _
        · exact retOk_err _
  · exact retOk_err _

theorem parseJoinClause_ok (fuel : Nat) (p : Parser) : resOk (parseJoinClause fuel p) := by
  cases fuel with
  | zero => exact trivial
  | succ f =>
      unfold parseJoinClause
      try dsimp only
      repeat' split
      all_goals first
        | exact trivial
        | exact retOk_err _
        | exact parseJoinClauseRest_ok _ _ _

theorem parseJoinsLoop_ok (fuel : Nat) : ∀ p, resOk (parseJoinsLoop fuel p) := by
  induction fuel with
  | zero => exact fun _ => trivial
  | succ f ih =>
      intro p
      unfold parseJoinsLoop
      try dsimp only
      split
      · exact bindR_ok (parseJoinClause_ok f _) (fun a q =>
          bindR_ok (ih _) (fun r w => retOk_ok _))
      · exact retOk_ok _

theorem parseGroupByLoop_ok (fuel : Nat) : ∀ p, resOk (parseGroupByLoop fuel p) := by
  induction fuel with
  | zero => exact fun _ => trivial
  | succ f ih =>
      intro p
      unfold parseGroupByLoop
      try dsimp only
      split
      · exact bindR_ok ((exprFamily_ok f).1 _) (fun a q =>
          bindR_ok (ih _) (fun r w => retOk_ok _))
      · exact retOk_ok _

theorem parseGroupByClause_ok (fuel : Nat) (p : Parser) :
    resOk (parseGroupByClause fuel p) := by
  cases fuel with
  | zero => exact trivial
  | succ f =>
      unfold parseGroupByClause
      try dsimp only
      split
      · exact retOk_err _
      · rcases expectPeek (nextToken p) .BY with ⟨b, q⟩
        cases b
        · exact retOk_err _
        · exact bindR_ok ((exprFamily_ok f).1 _) (fun a w =>
            bindR_ok (parseGroupByLoop_ok f _) (fun r v => retOk_ok _))

theorem parseOrderByItem_ok (fuel : Nat) (p : Parser) : resOk (parseOrderByItem fuel p) := by
  cases fuel with
  | zero => exact trivial
  | succ f =>
      unfold parseOrderByItem
      try dsimp only
      refine bindR_ok ((exprFamily_ok f).1 _) (fun a q => ?_)
      repeat' split
      all_goals exact retOk_ok _

theorem parseOrderByLoop_ok (fuel : Nat) : ∀ p, resOk (parseOrderByLoop fuel p) := by
  induction fuel with
  | zero => exact fun _ => trivial
  | succ f ih =>
      intro p
      unfold parseOrderByLoop
      try dsimp only
      split
      · exact bindR_ok (parseOrderByItem_ok f _) (fun a q =>
          bindR_ok (ih _) (fun r w => retOk_ok _))
      · exact retOk_ok _

theorem parseOrderByClause_ok (fuel : Nat) (p : Parser) :
    resOk (parseOrderByClause fuel p) := by
  cases fuel with
  | zero => exact trivial
  | succ f =>
      unfold parseOrderByClause
      try dsimp only
      split
      · exact retOk_err _
      · rcases expectPeek (nextToken p) .BY with ⟨b, q⟩
        cases b
        · exact retOk_err _
        · exact bindR_ok (parseOrderByItem_ok f _) (fun a w =>
            bindR_ok (parseOrderByLoop_ok f _) (fun r v => retOk_ok _))

theorem parseSelectStatement_ok (fuel : Nat) (p : Parser) :
    resOk (parseSelectStatement fuel p) := by
  cases fuel with
  | zero => exact trivial
  | succ f =>
      unfold parseSelectStatement
      try dsimp only
      split
      · exact retOk_err _
      · repeat' split
        all_goals first
          | exact retOk_err _
          | (refine bindR_ok (parseSelectList_ok f _) (fun columns q => ?_)
             refine bindR_ok ?_ (fun fromClause r => ?_)
             · split
               · have hF := parseFromClause_ok f q
                 rcases hfc : parseFromClause f q with _ | ⟨⟨a, e⟩, w⟩
                 · exact trivial
                 · rw [hfc] at hF
                   rcases a with _ | fc <;> rcases e with _ | e
                   · rcases hF with ⟨h1, -⟩ | ⟨-, h2⟩
                     · exact absurd h1 (by simp)
                     · exact absurd h2 (by simp)
                   · exact retOk_err _
                   · exact retOk_ok _
                   · exact retOk_err _
               · exact retOk_ok _
             · refine bindR_ok (parseJoinsLoop_ok f _) (fun joins w => ?_)
               refine bindR_ok ?_ (fun whereExpr v => ?_)
               · split
                 · have hW := (exprFamily_ok f).1 (nextToken w)
                   rcases hwx : parseExpression f (nextToken w) with _ | ⟨⟨a, e⟩, u⟩
                   · exact trivial
                   · rw [hwx] at hW
                     rcases a with _ | we <;> rcases e with _ | e
                     · rcases hW with ⟨h1, -⟩ | ⟨-, h2⟩
                       · exact absurd h1 (by simp)
                       · exact absurd h2 (by simp)
                     · exact retOk_err _
                     · exact retOk_ok _
                     · exact retOk_err _
                 · exact retOk_ok _
               · refine bindR_ok ?_ (fun groupBy u => ?_)
                 · split
                   · exact parseGroupByClause_ok f _
                   · exact retOk_ok _
                 · refine bindR_ok ?_ (fun having t => ?_)
                   · split
                     · have hH := (exprFamily_ok f).1 (nextToken u)
                       rcases hhx : parseExpression f (nextToken u) with _ | ⟨⟨a, e⟩, v2⟩
                       · exact trivial
                       · rw [hhx] at hH
                         rcases a with _ | he <;> rcases e with _ | e
                         · rcases hH with ⟨h1, -⟩ | ⟨-, h2⟩
                           · exact absurd h1 (by simp)
                           · exact absurd h2 (by simp)
                         · exact retOk_err _
                         · exact retOk_ok _
                         · exact retOk_err _
                     · exact retOk_ok _
                   · refine bindR_ok ?_ (fun orderBy s => retOk_ok _)
                     split
                     · exact parseOrderByClause_ok f _
                     · exact retOk_ok _)

theorem parseStatement_ok (fuel : Nat) (p : Parser) : resOk (parseStatement fuel p) := by
  unfold parseStatement
  split
  · have hS := parseSelectStatement_ok fuel p
    rcases hss : parseSelectStatement fuel p with _ | ⟨⟨a, e⟩, q⟩
    · exact trivial
    · rw [hss] at hS
      rcases hS with ⟨h1, h2⟩ | ⟨h1, h2⟩
      · subst h2
        rcases a with _ | s
        · exact absurd h1 (by simp)
        · exact retOk_ok _
      · subst h1
        rcases e with _ | e
        · exact absurd h2 (by simp)
        · exact retOk_err _
  · exact retOk_err _
  · exact retOk_err _
  · exact retOk_err _
  · exact retOk_err _

/-- C3 (amended): `ParseStatement` never fails silently: every run (at
any fuel bound) either exhausts its fuel, or returns a non-nil
`Statement` AST together with a nil error, or returns a nil AST
together with a non-nil error diagnostic.  (The original claim's
stronger dichotomy — that success also implies an empty accumulated
diagnostics list and that every diagnostic carries position
information — is refuted by `c3_success_with_diagnostics` and by the
position-free messages such as `expected JOIN after INNER`.) -/
theorem c3_parse_result_dichotomy (fuel : Nat) (p : Parser) :
    parseStatement fuel p = none
    ∨ ((resVal (parseStatement fuel p)).isSome = true
        ∧ resErr (parseStatement fuel p) = none)
    ∨ (resVal (parseStatement fuel p) = none
        ∧ (resErr (parseStatement fuel p)).isSome = true) := by
  have h := parseStatement_ok fuel p
  rcases hx : parseStatement fuel p with _ | ⟨⟨a, e⟩, q⟩
  · exact Or.inl rfl
  · rw [hx] at h
    rcases h with ⟨h1, h2⟩ | ⟨h1, h2⟩
    · refine Or.inr (Or.inl ⟨?_, ?_⟩)
      · simp only [hx, resVal]; exact h1
      · simp only [hx, resErr]; exact h2
    · refine Or.inr (Or.inr ⟨?_, ?_⟩)
      · simp only [hx, resVal]; exact h1
      · simp only [hx, resErr]; exact h2


end SqlParserGo
